import Mathlib

/-!
Shallow embedding of the document-analysis and completion-context engine of the
vscode-sentinel language server (src/server/src/server.ts and the namespace-aware
src/server/src/server.js), together with proofs of its specified properties.

Text is modelled as `List Char`; character offsets index that list.  The
conversion of offsets to line/column positions (`positionAt`) belongs to the
caller-supplied document object and is outside the scanned logic, so diagnostic
ranges here carry the raw start/end offsets.
-/

namespace Sentinel

/-- Uppercase Latin letters, the character class `[A-Z]` of the scanner's
regular expression. -/
def isUpperAZ (c : Char) : Bool :=
  ('A' ≤ c) && (c ≤ 'Z')

/-- JavaScript word characters `[A-Za-z0-9_]`, the class from which the `\b`
word-boundary assertion of the scanner's regular expression is built. -/
def isWordChar (c : Char) : Bool :=
  isUpperAZ c || (('a' ≤ c) && (c ≤ 'z')) || (('0' ≤ c) && (c ≤ '9')) || (c == '_')

/-- Length of the longest prefix of `l` consisting of uppercase Latin letters:
the greedy extent matched by `[A-Z]{2,}` when anchored at the head of `l`. -/
def upperRunLen : List Char → Nat
  | [] => 0
  | c :: rest => if isUpperAZ c then upperRunLen rest + 1 else 0

/-- The trailing `\b` assertion: it holds after the run exactly when the text
ends there or the next character is not a word character. -/
def noWordAhead : List Char → Bool
  | [] => true
  | c :: _ => !isWordChar c

/-- One anchored attempt of the regular expression `\b[A-Z]{2,}\b` at a fixed
position of the text.  `prevW` tells whether the character immediately before
the position is a word character (false at the start of the text), `rest` is
the text from the position on.  Returns the match length when the attempt
succeeds.  Backtracking the greedy `[A-Z]{2,}` can never help: a shorter run
would end between two uppercase letters where `\b` fails, so the attempt
succeeds exactly on the full uppercase run. -/
def matchHere (prevW : Bool) (rest : List Char) : Option Nat :=
  let k := upperRunLen rest
  if !prevW && decide (2 ≤ k) && noWordAhead (rest.drop k) then some k else none

/-- The semantics of `pattern.exec` for the global regex `/\b[A-Z]{2,}\b/g` of
`validateTextDocument`, searching from `lastIndex`: try the anchored match at
each successive position `i`, `i+1`, ... and return the first match as
(absolute start offset, length).  `prevW` is whether the character before
position `i` is a word character, `rest` is the text from position `i` on. -/
def execFrom : Bool → Nat → List Char → Option (Nat × Nat)
  | _, _, [] => none
  | prevW, i, c :: rest =>
    match matchHere prevW (c :: rest) with
    | some k => some (i, k)
    | none => execFrom (isWordChar c) (i + 1) rest

/-- LSP diagnostic severities; `validateTextDocument` only ever uses
`Warning`. -/
inductive DiagnosticSeverity where
  | Error
  | Warning
  | Information
  | Hint
deriving DecidableEq

/-- A source range, as the pair of character offsets that the code passes to
`textDocument.positionAt`.  The source calls the second field `end`, a reserved
word here, so it is named `stop`. -/
structure Range where
  start : Nat
  stop : Nat
deriving DecidableEq

/-- One entry of a diagnostic's `relatedInformation` array. -/
structure DiagnosticRelatedInformation where
  uri : String
  range : Range
  message : String
deriving DecidableEq

/-- A diagnostic finding as built by `validateTextDocument`.
`relatedInformation` is `none` when the field is left absent. -/
structure Diagnostic where
  severity : DiagnosticSeverity
  range : Range
  message : String
  source : String
  relatedInformation : Option (List DiagnosticRelatedInformation)
deriving DecidableEq

/-- The `ExampleSettings` interface: `maxNumberOfProblems`, a non-negative
integer. -/
structure ExampleSettings where
  maxNumberOfProblems : Nat
deriving DecidableEq

/-- The diagnostic object that one loop iteration of `validateTextDocument`
pushes for the match of length `k` at offset `i`: Warning severity, the match's
start/end offsets, the message built from the matched text `m[0]`, the fixed
source tag, and, when the client declared the related-information capability,
exactly the two fixed advisory entries pointing at the diagnostic's own
range. -/
def mkDiagnostic (hasRelatedInfo : Bool) (uri : String) (text : List Char) (i k : Nat) :
    Diagnostic :=
  let r : Range := ⟨i, i + k⟩
  { severity := .Warning
    range := r
    message := String.mk ((text.drop i).take k) ++ " is all uppercase."
    source := "ex"
    relatedInformation :=
      if hasRelatedInfo then
        some [⟨uri, r, "Spelling matters"⟩, ⟨uri, r, "Particularly for names"⟩]
      else none }

/-- The `while ((m = pattern.exec(text)) && problems < settings.maxNumberOfProblems)`
loop of `validateTextDocument`.  The loop state is the regex's `lastIndex`
(`pos`, with `rest = text.drop pos` and `prevW` whether the character before
`pos` is a word character) and the `problems` counter.  `fuel` is a structural
recursion bound only: every iteration consumes at least two characters of
`rest`, so any `fuel > rest.length` is enough and the value is independent of
it (proved below). -/
def validateLoop (hasRelatedInfo : Bool) (uri : String) (text : List Char) (maxP : Nat) :
    Nat → Bool → Nat → List Char → Nat → List Diagnostic
  | 0, _, _, _, _ => []
  | fuel + 1, prevW, pos, rest, problems =>
    match execFrom prevW pos rest with
    | none => []
    | some (i, k) =>
      if problems < maxP then
        mkDiagnostic hasRelatedInfo uri text i k ::
          validateLoop hasRelatedInfo uri text maxP fuel true (i + k)
            (rest.drop (i - pos + k)) (problems + 1)
      else []

/-- `validateTextDocument`: scan the whole text for matches of
`/\b[A-Z]{2,}\b/g`, capped by `settings.maxNumberOfProblems`.  The settings
value is the one `getDocumentSettings` resolved for the document, and
`hasRelatedInfo` is the session's `hasDiagnosticRelatedInformationCapability`
flag. -/
def validateTextDocument (hasRelatedInfo : Bool) (uri : String) (text : List Char)
    (settings : ExampleSettings) : List Diagnostic :=
  validateLoop hasRelatedInfo uri text settings.maxNumberOfProblems
    (text.length + 1) false 0 text 0

/-- Whether the character of `text` just before offset `i` is a word character
(false at offset 0): the left context consumed by the leading `\b`. -/
def prevIsWord (text : List Char) : Nat → Bool
  | 0 => false
  | j + 1 => isWordChar (text.getD j ' ')

/-- Specification-side description of the scanner's matches: the list, in
increasing order, of the starting offsets of the word-boundary-delimited runs
of two or more consecutive uppercase Latin letters in the text. -/
def matchStarts (text : List Char) : List Nat :=
  (List.range text.length).filter fun i =>
    (matchHere (prevIsWord text i) (text.drop i)).isSome

/-- Specification-side count of uppercase-run matches in the text. -/
def countUppercaseRuns (text : List Char) : Nat :=
  (matchStarts text).length

/-- Completion item kinds used by the server's catalogs. -/
inductive CompletionItemKind where
  | Method
  | Field
  | Function
  | Keyword
deriving DecidableEq

/-- A completion item as the server builds it: label, kind, and the numeric
`data` field (the id used by completion-resolve).  `detail` and
`documentation` are `none` for every item of the catalogs and get filled in by
`onCompletionResolve`. -/
structure CompletionItem where
  label : String
  kind : CompletionItemKind
  data : Nat
  detail : Option String := none
  documentation : Option String := none
deriving DecidableEq

/-- Characters matched by the JavaScript regular-expression class `\s`:
ASCII whitespace, NBSP, the Unicode space separators, line/paragraph
separators, and the BOM. -/
def isJsWhitespace (c : Char) : Bool :=
  c == ' ' || c == '\t' || c == '\n' || c == '\r' || c == '\x0b' || c == '\x0c' ||
  c == '\xa0' || c == '\u1680' || (('\u2000' ≤ c) && (c ≤ '\u200a')) ||
  c == '\u2028' || c == '\u2029' || c == '\u202f' || c == '\u205f' ||
  c == '\u3000' || c == '\ufeff'

/-- The namespace trigger test `/<ns>\.\s*$/.test(line)` of `onCompletion`: the
regular expression is anchored only on the right, so it holds exactly when the
line, after discarding trailing whitespace, ends with the characters of `ns`
followed by a dot — no word boundary is required before `ns`. -/
def testNamespaceDot (ns : List Char) (line : List Char) : Bool :=
  (ns ++ ['.']).isSuffixOf ((line.reverse.dropWhile isJsWhitespace).reverse)

/-- The catalog returned for `/strings\.\s*$/`. -/
def stringsCatalog : List CompletionItem :=
  [ { label := "has_prefix()", kind := .Method, data := 1 },
    { label := "has_suffix()", kind := .Method, data := 2 },
    { label := "join()", kind := .Method, data := 3 },
    { label := "trim_prefix()", kind := .Method, data := 4 },
    { label := "to_lower()", kind := .Method, data := 5 },
    { label := "to_upper()", kind := .Method, data := 6 },
    { label := "split()", kind := .Method, data := 7 } ]

/-- The catalog returned for `/json\.\s*$/`. -/
def jsonCatalog : List CompletionItem :=
  [ { label := "marshal()", kind := .Method, data := 1 },
    { label := "unmarshal()", kind := .Method, data := 2 } ]

/-- The catalog returned for `/http\.\s*$/`. -/
def httpCatalog : List CompletionItem :=
  [ { label := "get()", kind := .Method, data := 1 },
    { label := "request()", kind := .Method, data := 2 },
    { label := "post()", kind := .Method, data := 3 },
    { label := "client", kind := .Field, data := 4 },
    { label := "accept_status_codes", kind := .Function, data := 5 } ]

/-- The catalog returned for `/types\.\s*$/`. -/
def typesCatalog : List CompletionItem :=
  [ { label := "type_of()", kind := .Method, data := 1 } ]

/-- The catalog returned for `/base64\.\s*$/`. -/
def base64Catalog : List CompletionItem :=
  [ { label := "encode()", kind := .Method, data := 1 },
    { label := "decode()", kind := .Method, data := 2 },
    { label := "urlencode()", kind := .Method, data := 3 },
    { label := "urldecode()", kind := .Method, data := 4 } ]

/-- The catalog returned for `/time\.\s*$/`. -/
def timeCatalog : List CompletionItem :=
  [ { label := "now", kind := .Field, data := 1 },
    { label := "load()", kind := .Method, data := 2 },
    { label := "second", kind := .Field, data := 3 },
    { label := "millisecond", kind := .Field, data := 4 },
    { label := "nanosecond", kind := .Field, data := 5 },
    { label := "microsecond", kind := .Field, data := 6 },
    { label := "minute", kind := .Field, data := 7 },
    { label := "hour", kind := .Field, data := 8 } ]

/-- The catalog returned for `/decimal\.\s*$/`, duplicate data values and the
`sqaure_root()` label exactly as in the source. -/
def decimalCatalog : List CompletionItem :=
  [ { label := "infinity()", kind := .Method, data := 1 },
    { label := "new()", kind := .Method, data := 2 },
    { label := "is_nan()", kind := .Method, data := 3 },
    { label := "nan", kind := .Field, data := 4 },
    { label := "is_infinite()", kind := .Method, data := 5 },
    { label := "string", kind := .Field, data := 6 },
    { label := "sign", kind := .Field, data := 7 },
    { label := "coefficient", kind := .Field, data := 8 },
    { label := "exponent", kind := .Field, data := 9 },
    { label := "float", kind := .Field, data := 10 },
    { label := "is()", kind := .Method, data := 11 },
    { label := "is_not()", kind := .Method, data := 12 },
    { label := "less_than()", kind := .Method, data := 13 },
    { label := "less_than_or_equals()", kind := .Method, data := 14 },
    { label := "greater_than()", kind := .Method, data := 15 },
    { label := "greater_than_or_equals()", kind := .Method, data := 16 },
    { label := "add()", kind := .Method, data := 17 },
    { label := "substract()", kind := .Method, data := 17 },
    { label := "multiply()", kind := .Method, data := 18 },
    { label := "divide()", kind := .Method, data := 19 },
    { label := "modulo()", kind := .Method, data := 20 },
    { label := "power()", kind := .Method, data := 21 },
    { label := "loge()", kind := .Method, data := 22 },
    { label := "sqaure_root()", kind := .Method, data := 23 },
    { label := "ceiling()", kind := .Method, data := 24 },
    { label := "floor()", kind := .Method, data := 25 },
    { label := "absolute()", kind := .Method, data := 26 },
    { label := "negate()", kind := .Method, data := 26 } ]

/-- The default catalog returned when no namespace trigger matches, duplicate
data values exactly as in the source. -/
def defaultCatalog : List CompletionItem :=
  [ { label := "import", kind := .Keyword, data := 1 },
    { label := "for", kind := .Keyword, data := 2 },
    { label := "as", kind := .Keyword, data := 3 },
    { label := "filter", kind := .Keyword, data := 4 },
    { label := "if", kind := .Keyword, data := 5 },
    { label := "break", kind := .Keyword, data := 6 },
    { label := "continue", kind := .Keyword, data := 7 },
    { label := "in", kind := .Keyword, data := 8 },
    { label := "null", kind := .Keyword, data := 9 },
    { label := "rule", kind := .Keyword, data := 10 },
    { label := "param", kind := .Keyword, data := 11 },
    { label := "default", kind := .Keyword, data := 12 },
    { label := "map", kind := .Keyword, data := 13 },
    { label := "strings", kind := .Keyword, data := 14 },
    { label := "json", kind := .Keyword, data := 15 },
    { label := "http", kind := .Keyword, data := 16 },
    { label := "types", kind := .Keyword, data := 17 },
    { label := "decimal", kind := .Keyword, data := 18 },
    { label := "base64", kind := .Keyword, data := 19 },
    { label := "time", kind := .Keyword, data := 20 },
    { label := "print()", kind := .Method, data := 21 },
    { label := "error()", kind := .Method, data := 22 },
    { label := "length()", kind := .Method, data := 23 },
    { label := "append()", kind := .Method, data := 24 },
    { label := "delete()", kind := .Method, data := 25 },
    { label := "range()", kind := .Method, data := 26 },
    { label := "keys()", kind := .Method, data := 27 },
    { label := "values()", kind := .Method, data := 28 },
    { label := "int()", kind := .Method, data := 29 },
    { label := "string()", kind := .Method, data := 30 },
    { label := "float()", kind := .Method, data := 30 },
    { label := "bool()", kind := .Method, data := 31 },
    { label := "case", kind := .Method, data := 32 },
    { label := "when", kind := .Method, data := 33 },
    { label := "all", kind := .Method, data := 34 },
    { label := "any", kind := .Method, data := 35 },
    { label := "func()", kind := .Method, data := 36 },
    { label := "return", kind := .Keyword, data := 37 },
    { label := "undefined", kind := .Keyword, data := 37 } ]

/-- The completion classifier of the namespace-aware `onCompletion` handler:
given the text of the current line from column 0 up to the cursor, test the
namespace trigger patterns in the source's order — strings, json, http, types,
base64, time, decimal — and return the first matching catalog, or the default
catalog when none matches. -/
def onCompletion (line : List Char) : List CompletionItem :=
  if testNamespaceDot (("strings").toList) line then stringsCatalog
  else if testNamespaceDot (("json").toList) line then jsonCatalog
  else if testNamespaceDot (("http").toList) line then httpCatalog
  else if testNamespaceDot (("types").toList) line then typesCatalog
  else if testNamespaceDot (("base64").toList) line then base64Catalog
  else if testNamespaceDot (("time").toList) line then timeCatalog
  else if testNamespaceDot (("decimal").toList) line then decimalCatalog
  else defaultCatalog

/-- The `onCompletionResolve` handler: items whose `data` field is 1 get
the import keyword's `detail` and `documentation` attached; every other item
is returned unchanged. -/
def onCompletionResolve (item : CompletionItem) : CompletionItem :=
  if item.data == 1 then
    { item with
        detail := some ("Import plugin or standard library")
        documentation := some ("Import keyword allow us to import libraries") }
  else item

/-- The `defaultSettings` constant. -/
def defaultSettings : ExampleSettings := ⟨1000⟩

/-- Process-wide mutable state of the settings resolver: the
`hasConfigurationCapability` flag fixed at initialization, the global settings
value, and the per-document settings cache `documentSettings` (a map from
resource URI to its resolved settings, modelled as an association list). -/
structure ServerState where
  hasConfigurationCapability : Bool
  globalSettings : ExampleSettings
  documentSettings : List (String × ExampleSettings)
deriving DecidableEq

/-- The `connection.onDidChangeConfiguration` handler.  `changeSettings`
models `change.settings.languageServerExample` (`none` when that field is
absent or null).  When the client supports per-scope configuration the whole
per-document cache is cleared; otherwise the payload (or the default) becomes
the new global settings.  The trailing `diagnostics.refresh()` call is a
protocol round trip with no effect on this state. -/
def onDidChangeConfiguration (st : ServerState) (changeSettings : Option ExampleSettings) :
    ServerState :=
  if st.hasConfigurationCapability then
    { st with documentSettings := [] }
  else
    { st with globalSettings := changeSettings.getD defaultSettings }

/-- The `getDocumentSettings` function.  Returns the resolved settings, the
updated state, and whether the fresh resolution path was taken, i.e. whether a
new scoped `workspace/configuration` request was issued (cache miss).  `fetch`
models the value the host answers for a scoped configuration request. -/
def getDocumentSettings (st : ServerState) (fetch : String → ExampleSettings)
    (resource : String) : ExampleSettings × ServerState × Bool :=
  if !st.hasConfigurationCapability then
    (st.globalSettings, st, false)
  else
    match st.documentSettings.lookup resource with
    | some r => (r, st, false)
    | none =>
      let r := fetch resource
      (r, { st with documentSettings := (resource, r) :: st.documentSettings }, true)

/-- A full document diagnostic report, `{ kind: "full", items: [...] }`. -/
structure FullDocumentDiagnosticReport where
  kind : String
  items : List Diagnostic
deriving DecidableEq

/-- The `connection.languages.diagnostics.on` pull handler.  `docs` models the
Document Store (`documents.get`, an association list from URI to text).  For a
known document it returns a full report whose items come from scanning that
document with its resolved settings; for an unknown URI it returns a full
report with an empty items list. -/
def diagnosticsPullHandler (docs : List (String × List Char)) (hasRelatedInfo : Bool)
    (st : ServerState) (fetch : String → ExampleSettings) (uri : String) :
    FullDocumentDiagnosticReport :=
  match docs.lookup uri with
  | some text =>
    { kind := "full"
      items := validateTextDocument hasRelatedInfo uri text (getDocumentSettings st fetch uri).1 }
  | none => { kind := "full", items := [] }

/-! ## Lemmas about the diagnostic scanner -/

/-- Helper: the uppercase run is no longer than the text. -/
theorem upperRunLen_le_length (l : List Char) : upperRunLen l ≤ l.length := by
  induction l with
  | nil => simp [upperRunLen]
  | cons c rest ih =>
    simp only [upperRunLen, List.length_cons]
    split
    · omega
    · omega

/-- Helper: every character inside the uppercase run is an uppercase letter. -/
theorem upperRunLen_upper (l : List Char) (m : Nat) (h : m < upperRunLen l) :
    isUpperAZ (l.getD m ' ') = true := by
  induction l generalizing m with
  | nil => simp [upperRunLen] at h
  | cons c rest ih =>
    simp only [upperRunLen] at h
    by_cases hc : isUpperAZ c
    · rw [if_pos hc] at h
      cases m with
      | zero => simpa using hc
      | succ m => simpa using ih m (by omega)
    · rw [if_neg hc] at h
      omega

/-- Helper: unfolding a successful anchored match attempt. -/
theorem matchHere_eq_some {prevW : Bool} {rest : List Char} {k : Nat}
    (h : matchHere prevW rest = some k) :
    prevW = false ∧ k = upperRunLen rest ∧ 2 ≤ k ∧ noWordAhead (rest.drop k) = true := by
  simp only [matchHere] at h
  split at h
  · rename_i hc
    simp only [Bool.and_eq_true, Bool.not_eq_true', decide_eq_true_eq] at hc
    injection h with h
    subst h
    exact ⟨hc.1.1, rfl, hc.1.2, hc.2⟩
  · cases h

/-- Helper: the anchored attempt fails right after a word character. -/
theorem matchHere_true (rest : List Char) : matchHere true rest = none := by
  simp [matchHere]

/-- Helper: the anchored attempt fails on the empty remainder. -/
theorem matchHere_nil (prevW : Bool) : matchHere prevW [] = none := by
  simp [matchHere, upperRunLen]

/-- Helper: uppercase letters are word characters. -/
theorem isWordChar_of_upper {c : Char} (h : isUpperAZ c = true) : isWordChar c = true := by
  simp [isWordChar, h]

/-- Helper: reading inside a dropped list. -/
theorem getD_drop (text : List Char) (i m : Nat) (d : Char) :
    (text.drop i).getD m d = text.getD (i + m) d := by
  simp [List.getD_eq_getElem?_getD, List.getElem?_drop]

/-- Helper: the head of `text.drop pos` is the character at offset `pos`. -/
theorem getD_of_drop_cons {text rest : List Char} {c : Char} {pos : Nat}
    (h : text.drop pos = c :: rest) (d : Char) : text.getD pos d = c := by
  have h0 := List.getElem?_drop text pos 0
  rw [h] at h0
  simp only [List.getElem?_cons_zero, Nat.add_zero] at h0
  simp [List.getD_eq_getElem?_getD, ← h0]

/-- Helper: the tail of `text.drop pos` is `text.drop (pos + 1)`. -/
theorem drop_succ_of_drop_cons {text rest : List Char} {c : Char} {pos : Nat}
    (h : text.drop pos = c :: rest) : text.drop (pos + 1) = rest := by
  rw [← List.tail_drop, h]
  rfl

/-- Helper: the left word-boundary context one step to the right. -/
theorem prevIsWord_succ {text rest : List Char} {c : Char} {pos : Nat}
    (h : text.drop pos = c :: rest) : prevIsWord text (pos + 1) = isWordChar c := by
  show isWordChar (text.getD pos ' ') = isWordChar c
  rw [getD_of_drop_cons h]

/-- Correctness of a successful `exec`: the result is the leftmost anchored
match at or after the search position. -/
theorem execFrom_some (text : List Char) :
    ∀ (rest : List Char) (pos i k : Nat), rest = text.drop pos →
      execFrom (prevIsWord text pos) pos rest = some (i, k) →
      pos ≤ i ∧ matchHere (prevIsWord text i) (text.drop i) = some k ∧
        ∀ j, pos ≤ j → j < i → matchHere (prevIsWord text j) (text.drop j) = none := by
  intro rest
  induction rest with
  | nil => intro pos i k hr h; simp [execFrom] at h
  | cons c rs ih =>
    intro pos i k hr h
    cases hm : matchHere (prevIsWord text pos) (c :: rs) with
    | some k' =>
      simp only [execFrom, hm, Option.some.injEq, Prod.mk.injEq] at h
      obtain ⟨h1, h2⟩ := h
      subst h1
      subst h2
      refine ⟨Nat.le_refl _, by rw [← hr]; exact hm, ?_⟩
      intro j hj1 hj2
      omega
    | none =>
      simp only [execFrom, hm] at h
      rw [← prevIsWord_succ hr.symm] at h
      obtain ⟨h1, h2, h3⟩ := ih (pos + 1) i k (drop_succ_of_drop_cons hr.symm).symm h
      refine ⟨by omega, h2, ?_⟩
      intro j hj1 hj2
      by_cases hj0 : j = pos
      · subst hj0
        rw [← hr]
        exact hm
      · exact h3 j (by omega) hj2

/-- Correctness of a failed `exec`: no position at or after the search position
carries an anchored match. -/
theorem execFrom_none (text : List Char) :
    ∀ (rest : List Char) (pos : Nat), rest = text.drop pos →
      execFrom (prevIsWord text pos) pos rest = none →
      ∀ j, pos ≤ j → matchHere (prevIsWord text j) (text.drop j) = none := by
  intro rest
  induction rest with
  | nil =>
    intro pos hr _ j hj
    have hlen : text.length ≤ pos := List.drop_eq_nil_iff.mp hr.symm
    have : text.drop j = [] := List.drop_eq_nil_iff.mpr (by omega)
    rw [this]
    exact matchHere_nil _
  | cons c rs ih =>
    intro pos hr h j hj
    cases hm : matchHere (prevIsWord text pos) (c :: rs) with
    | some k' =>
      simp only [execFrom, hm] at h
      cases h
    | none =>
      simp only [execFrom, hm] at h
      rw [← prevIsWord_succ hr.symm] at h
      by_cases hj0 : j = pos
      · subst hj0
        rw [← hr]
        exact hm
      · exact ih (pos + 1) (drop_succ_of_drop_cons hr.symm).symm h j (by omega)

/-- Helper: no anchored match can start strictly inside another match's run,
because the character just before such a position is an uppercase letter and
the leading `\b` fails there. -/
theorem matchHere_inside (text : List Char) {i k j : Nat}
    (hm : matchHere (prevIsWord text i) (text.drop i) = some k)
    (h1 : i < j) (h2 : j < i + k) :
    matchHere (prevIsWord text j) (text.drop j) = none := by
  obtain ⟨-, hk, -, -⟩ := matchHere_eq_some hm
  have hup : isUpperAZ ((text.drop i).getD (j - 1 - i) ' ') = true :=
    upperRunLen_upper _ _ (by omega)
  rw [getD_drop] at hup
  cases j with
  | zero => omega
  | succ j' =>
    have hj' : i + (j' + 1 - 1 - i) = j' := by omega
    rw [hj'] at hup
    have hw : prevIsWord text (j' + 1) = true := by
      show isWordChar (text.getD j' ' ') = true
      exact isWordChar_of_upper hup
    rw [hw]
    exact matchHere_true _

/-- Helper: membership in `matchStarts` from a successful anchored attempt. -/
theorem mem_matchStarts {text : List Char} {i k : Nat}
    (hm : matchHere (prevIsWord text i) (text.drop i) = some k) : i ∈ matchStarts text := by
  obtain ⟨-, hk, h2, -⟩ := matchHere_eq_some hm
  have hlen : i < text.length := by
    by_contra hge
    rw [List.drop_eq_nil_iff.mpr (by omega)] at hk
    simp [upperRunLen] at hk
    omega
  simp [matchStarts, List.mem_filter, List.mem_range, hlen, hm]

/-- Helper: every member of `matchStarts` carries a successful anchored
attempt. -/
theorem matchStarts_isSome {text : List Char} {j : Nat} (h : j ∈ matchStarts text) :
    (matchHere (prevIsWord text j) (text.drop j)).isSome = true := by
  simp only [matchStarts, List.mem_filter] at h
  exact h.2

/-- Helper: match starts are listed in strictly increasing order. -/
theorem matchStarts_sorted (text : List Char) : (matchStarts text).Pairwise (· < ·) :=
  (List.pairwise_lt_range _).filter _

/-- Helper: splitting the filtered sorted list of starts at its least element
at or after `pos`. -/
theorem filter_ge_split (i b pos : Nat) :
    ∀ l : List Nat, l.Pairwise (· < ·) → i ∈ l → pos ≤ i → i < b →
      (∀ j ∈ l, pos ≤ j → i ≤ j) → (∀ j ∈ l, i < j → b ≤ j) →
      l.filter (fun j => decide (pos ≤ j)) = i :: l.filter (fun j => decide (b ≤ j)) := by
  intro l
  induction l with
  | nil => intro _ hi; cases hi
  | cons a t ih =>
    intro hp ha hpi hib hmin hgap
    rcases List.mem_cons.mp ha with rfl | hat
    · rw [List.filter_cons, List.filter_cons, if_pos (by simpa using hpi),
        if_neg (by simp; omega)]
      congr 1
      refine List.filter_congr fun j hj => ?_
      have hij : i < j := (List.pairwise_cons.mp hp).1 j hj
      have hbj : b ≤ j := hgap j (List.mem_cons_of_mem _ hj) hij
      simp only [decide_eq_decide]
      omega
    · have hai : a < i := (List.pairwise_cons.mp hp).1 i hat
      rw [List.filter_cons,
        if_neg (by
          simp only [decide_eq_true_eq]
          intro hpa
          exact absurd (hmin a (List.mem_cons_self a t) hpa) (by omega)),
        List.filter_cons, if_neg (by simp; omega)]
      exact ih (List.pairwise_cons.mp hp).2 hat hpi hib
        (fun j hj hpj => hmin j (List.mem_cons_of_mem _ hj) hpj)
        (fun j hj hij => hgap j (List.mem_cons_of_mem _ hj) hij)

/-- The scanning loop, run from any position with consistent loop state and
enough fuel, produces exactly the diagnostics of the match starts at or after
that position, capped by the remaining problem budget. -/
theorem validateLoop_eq (hasRel : Bool) (uri : String) (text : List Char) (maxP : Nat) :
    ∀ (fuel pos problems : Nat), text.length - pos < fuel →
      validateLoop hasRel uri text maxP fuel (prevIsWord text pos) pos (text.drop pos) problems =
        (((matchStarts text).filter (fun j => decide (pos ≤ j))).take (maxP - problems)).map
          (fun s => mkDiagnostic hasRel uri text s (upperRunLen (text.drop s))) := by
  intro fuel
  induction fuel with
  | zero => intro pos problems h; omega
  | succ fuel ih =>
    intro pos problems hfuel
    cases hE : execFrom (prevIsWord text pos) pos (text.drop pos) with
    | none =>
      have hnone := execFrom_none text (text.drop pos) pos rfl hE
      have hfil : (matchStarts text).filter (fun j => decide (pos ≤ j)) = [] := by
        rw [List.filter_eq_nil_iff]
        intro a ha hpa
        have hs := matchStarts_isSome ha
        rw [hnone a (by simpa using hpa)] at hs
        simp at hs
      rw [validateLoop, hE, hfil]
      simp
    | some x =>
      obtain ⟨i, k⟩ := x
      obtain ⟨hpi, hmi, hminlt⟩ := execFrom_some text (text.drop pos) pos i k rfl hE
      obtain ⟨-, hk, hk2, -⟩ := matchHere_eq_some hmi
      have hik : i + k ≤ text.length := by
        have := upperRunLen_le_length (text.drop i)
        rw [List.length_drop] at this
        omega
      have hmem : i ∈ matchStarts text := mem_matchStarts hmi
      have hmin : ∀ j ∈ matchStarts text, pos ≤ j → i ≤ j := by
        intro j hj hpj
        by_contra hlt
        have hs := matchStarts_isSome hj
        rw [hminlt j hpj (by omega)] at hs
        simp at hs
      have hgap : ∀ j ∈ matchStarts text, i < j → i + k ≤ j := by
        intro j hj hij
        by_contra hlt
        have hs := matchStarts_isSome hj
        rw [matchHere_inside text hmi hij (by omega)] at hs
        simp at hs
      have hsplit : (matchStarts text).filter (fun j => decide (pos ≤ j)) =
          i :: (matchStarts text).filter (fun j => decide (i + k ≤ j)) :=
        filter_ge_split i (i + k) pos (matchStarts text) (matchStarts_sorted text)
          hmem hpi (by omega) hmin hgap
      simp only [validateLoop, hE, hsplit]
      by_cases hp : problems < maxP
      · rw [if_pos hp]
        have htake : maxP - problems = (maxP - (problems + 1)) + 1 := by omega
        rw [htake, List.take_succ_cons, List.map_cons, ← hk]
        congr 1
        have hdd : (text.drop pos).drop (i - pos + k) = text.drop (i + k) := by
          rw [List.drop_drop]
          congr 1
          omega
        have hprev : prevIsWord text (i + k) = true := by
          have hup : isUpperAZ ((text.drop i).getD (k - 1) ' ') = true :=
            upperRunLen_upper _ _ (by omega)
          rw [getD_drop] at hup
          have hik1 : i + k = (i + (k - 1)) + 1 := by omega
          rw [hik1]
          show isWordChar (text.getD (i + (k - 1)) ' ') = true
          exact isWordChar_of_upper hup
        rw [hdd, ← hprev]
        exact ih (i + k) (problems + 1) (by omega)
      · rw [if_neg hp]
        have hz : maxP - problems = 0 := by omega
        rw [hz]
        simp

/-- Closed form of the scanner: the diagnostics list is exactly the list of
match starts, in increasing order, truncated to `maxNumberOfProblems`, each
turned into its diagnostic. -/
theorem validateTextDocument_eq (hasRel : Bool) (uri : String) (text : List Char)
    (settings : ExampleSettings) :
    validateTextDocument hasRel uri text settings =
      ((matchStarts text).take settings.maxNumberOfProblems).map
        (fun s => mkDiagnostic hasRel uri text s (upperRunLen (text.drop s))) := by
  have h := validateLoop_eq hasRel uri text settings.maxNumberOfProblems
    (text.length + 1) 0 0 (by omega)
  rw [validateTextDocument]
  have hfil : (matchStarts text).filter (fun j => decide (0 ≤ j)) = matchStarts text :=
    List.filter_eq_self.mpr fun a _ => by simp
  rw [hfil, Nat.sub_zero] at h
  have hprev : prevIsWord text 0 = false := rfl
  rw [hprev, List.drop_zero] at h
  exact h

/-- C1: for every document text and every settings value the Diagnostic
Scanner returns exactly min(count of word-boundary-delimited uppercase runs of
length at least two, maxNumberOfProblems) findings; maxNumberOfProblems = 0
yields the empty finding list; and the text "AA BB CC" with
maxNumberOfProblems = 2 yields exactly the two findings for "AA" and "BB". -/
theorem validateTextDocument_count_min :
    (∀ (hasRel : Bool) (uri : String) (text : List Char) (settings : ExampleSettings),
        (validateTextDocument hasRel uri text settings).length =
          min (countUppercaseRuns text) settings.maxNumberOfProblems) ∧
    (∀ (hasRel : Bool) (uri : String) (text : List Char),
        validateTextDocument hasRel uri text ⟨0⟩ = []) ∧
    validateTextDocument false ("u") (("AA BB CC").toList) ⟨2⟩ =
      [{ severity := .Warning, range := ⟨0, 2⟩, message := "AA is all uppercase.",
         source := "ex", relatedInformation := none },
       { severity := .Warning, range := ⟨3, 5⟩, message := "BB is all uppercase.",
         source := "ex", relatedInformation := none }] := by
  refine ⟨?_, ?_, by decide⟩
  · intro hasRel uri text settings
    rw [validateTextDocument_eq, List.length_map, List.length_take, countUppercaseRuns]
    exact Nat.min_comm _ _
  · intro hasRel uri text
    rw [validateTextDocument_eq]
    simp

/-- C2: the findings come in left-to-right non-overlapping order (each match
begins at or after the end of the previous one); every finding is Warning
severity with the fixed source tag, spans exactly one matched run's start/end
offsets and carries the message built from that matched text; and the document
"let X = FOO" yields exactly the one finding for "FOO". -/
theorem validateTextDocument_order_fields :
    (∀ (hasRel : Bool) (uri : String) (text : List Char) (settings : ExampleSettings),
        (validateTextDocument hasRel uri text settings).Chain'
          (fun d e => d.range.stop ≤ e.range.start)) ∧
    (∀ (hasRel : Bool) (uri : String) (text : List Char) (settings : ExampleSettings)
        (d : Diagnostic), d ∈ validateTextDocument hasRel uri text settings →
        d.severity = .Warning ∧ d.source = "ex" ∧
        ∃ s, s ∈ matchStarts text ∧
          d.range = ⟨s, s + upperRunLen (text.drop s)⟩ ∧
          d.message =
            String.mk ((text.drop s).take (upperRunLen (text.drop s))) ++
              " is all uppercase.") ∧
    validateTextDocument false ("u") (("let X = FOO").toList) ⟨1000⟩ =
      [{ severity := .Warning, range := ⟨8, 11⟩, message := "FOO is all uppercase.",
         source := "ex", relatedInformation := none }] := by
  refine ⟨?_, ?_, by decide⟩
  · intro hasRel uri text settings
    rw [validateTextDocument_eq]
    have hpw : (matchStarts text).Pairwise
        (fun a b => a + upperRunLen (text.drop a) ≤ b) := by
      refine (matchStarts_sorted text).imp_of_mem ?_
      intro a b ha hb hab
      obtain ⟨k, hk⟩ := Option.isSome_iff_exists.mp (matchStarts_isSome ha)
      obtain ⟨-, hkk, -, -⟩ := matchHere_eq_some hk
      by_contra hlt
      have hnone := matchHere_inside text hk hab (by omega)
      have hsb := matchStarts_isSome hb
      rw [hnone] at hsb
      simp at hsb
    refine List.Pairwise.chain' ?_
    refine List.pairwise_map.mpr ?_
    refine (List.Pairwise.sublist (List.take_sublist _ _) hpw).imp ?_
    intro a b hab
    simpa [mkDiagnostic] using hab
  · intro hasRel uri text settings d hd
    rw [validateTextDocument_eq] at hd
    obtain ⟨s, hs, rfl⟩ := List.mem_map.mp hd
    exact ⟨rfl, rfl, s, List.mem_of_mem_take hs, rfl, rfl⟩

/-- Witness for C2: instantiating the membership conjunct at the single
finding of the document "let X = FOO". -/
theorem validateTextDocument_order_fields_witness :
    ({ severity := .Warning, range := ⟨8, 11⟩, message := "FOO is all uppercase.",
       source := "ex", relatedInformation := none } : Diagnostic).severity = .Warning :=
  (validateTextDocument_order_fields.2.1 false ("u") (("let X = FOO").toList) ⟨1000⟩
    { severity := .Warning, range := ⟨8, 11⟩, message := "FOO is all uppercase.",
      source := "ex", relatedInformation := none } (by decide)).1

/-- C8: every finding carries exactly the two fixed related-information
entries, each pointing at the finding's own range, when the
related-information capability flag is set, and no related information
otherwise. -/
theorem validateTextDocument_relatedInformation (hasRel : Bool) (uri : String)
    (text : List Char) (settings : ExampleSettings) (d : Diagnostic)
    (hd : d ∈ validateTextDocument hasRel uri text settings) :
    d.relatedInformation =
      if hasRel then
        some [⟨uri, d.range, "Spelling matters"⟩, ⟨uri, d.range, "Particularly for names"⟩]
      else none := by
  rw [validateTextDocument_eq] at hd
  obtain ⟨s, hs, rfl⟩ := List.mem_map.mp hd
  simp [mkDiagnostic]

/-- Witness for C8 at the finding of the document "AA" with the capability
flag set. -/
theorem validateTextDocument_relatedInformation_witness :
    (mkDiagnostic true ("u") (("AA").toList) 0 2).relatedInformation =
      if true then
        some [⟨("u"), (mkDiagnostic true ("u") (("AA").toList) 0 2).range, "Spelling matters"⟩,
          ⟨("u"), (mkDiagnostic true ("u") (("AA").toList) 0 2).range,
            "Particularly for names"⟩]
      else none :=
  validateTextDocument_relatedInformation true ("u") (("AA").toList) ⟨5⟩
    (mkDiagnostic true ("u") (("AA").toList) 0 2) (by decide)

/-! ## Lemmas about the completion classifier and resolver -/

/-- Helper: discarding trailing whitespace does nothing to a line that ends
with a dot. -/
theorem dropTrailing_ends_dot (l : List Char) :
    ((l ++ ['.']).reverse.dropWhile isJsWhitespace).reverse = l ++ ['.'] := by
  rw [List.reverse_append]
  show ((('.' : Char) :: l.reverse).dropWhile isJsWhitespace).reverse = l ++ ['.']
  rw [List.dropWhile_cons, if_neg (by decide)]
  simp

/-- Helper: the namespace trigger test succeeds on every line that ends with
the namespace name followed by a dot, whatever comes before. -/
theorem testNamespaceDot_suffix (ns pre : List Char) :
    testNamespaceDot ns (pre ++ ns ++ ['.']) = true := by
  rw [testNamespaceDot, List.append_assoc, ← List.append_assoc pre ns ['.'],
    dropTrailing_ends_dot]
  rw [List.isSuffixOf_iff_suffix, List.append_assoc]
  exact List.suffix_append _ _

/-- Helper: the namespace trigger test for `ns1` fails on a line ending with
the probe of a different namespace `ns2` when neither probe is a suffix of the
other. -/
theorem testNamespaceDot_ne (ns1 ns2 pre : List Char)
    (h12 : (ns1 ++ ['.']).isSuffixOf (ns2 ++ ['.']) = false)
    (h21 : (ns2 ++ ['.']).isSuffixOf (ns1 ++ ['.']) = false) :
    ¬ (testNamespaceDot ns1 (pre ++ ns2 ++ ['.']) = true) := by
  rw [testNamespaceDot, dropTrailing_ends_dot, List.isSuffixOf_iff_suffix]
  intro h1
  have h2 : ns2 ++ ['.'] <:+ pre ++ ns2 ++ ['.'] := by
    rw [List.append_assoc]
    exact List.suffix_append _ _
  rcases List.suffix_or_suffix_of_suffix h1 h2 with h | h
  · rw [← List.isSuffixOf_iff_suffix, h12] at h
    cases h
  · rw [← List.isSuffixOf_iff_suffix, h21] at h
    cases h

/-- C3: every line prefix accepted by the strings trigger test (it ends with
"strings." optionally followed only by whitespace, whatever text comes
earlier) receives exactly the 7-item strings catalog, unfiltered and in its
fixed order. -/
theorem onCompletion_strings (line : List Char)
    (h : testNamespaceDot (("strings").toList) line = true) :
    onCompletion line =
      [ { label := "has_prefix()", kind := .Method, data := 1 },
        { label := "has_suffix()", kind := .Method, data := 2 },
        { label := "join()", kind := .Method, data := 3 },
        { label := "trim_prefix()", kind := .Method, data := 4 },
        { label := "to_lower()", kind := .Method, data := 5 },
        { label := "to_upper()", kind := .Method, data := 6 },
        { label := "split()", kind := .Method, data := 7 } ] := by
  rw [onCompletion, if_pos h]
  rfl

/-- Witness for C3: the line "foo.strings. " (trailing whitespace after the
trigger) receives the strings catalog. -/
theorem onCompletion_strings_witness :
    onCompletion (("foo.strings. ").toList) =
      [ { label := "has_prefix()", kind := .Method, data := 1 },
        { label := "has_suffix()", kind := .Method, data := 2 },
        { label := "join()", kind := .Method, data := 3 },
        { label := "trim_prefix()", kind := .Method, data := 4 },
        { label := "to_lower()", kind := .Method, data := 5 },
        { label := "to_upper()", kind := .Method, data := 6 },
        { label := "split()", kind := .Method, data := 7 } ] :=
  onCompletion_strings (("foo.strings. ").toList) (by decide)

/-- C4: a line prefix matching none of the namespace trigger patterns receives
the default catalog, which contains the labels import, for, if and return and
does not contain the namespace-method label has_prefix(). -/
theorem onCompletion_default (line : List Char)
    (h1 : testNamespaceDot (("strings").toList) line = false)
    (h2 : testNamespaceDot (("json").toList) line = false)
    (h3 : testNamespaceDot (("http").toList) line = false)
    (h4 : testNamespaceDot (("types").toList) line = false)
    (h5 : testNamespaceDot (("base64").toList) line = false)
    (h6 : testNamespaceDot (("time").toList) line = false)
    (h7 : testNamespaceDot (("decimal").toList) line = false) :
    onCompletion line = defaultCatalog ∧
    (defaultCatalog.map (fun x => x.label)).contains ("import") = true ∧
    (defaultCatalog.map (fun x => x.label)).contains ("for") = true ∧
    (defaultCatalog.map (fun x => x.label)).contains ("if") = true ∧
    (defaultCatalog.map (fun x => x.label)).contains ("return") = true ∧
    (defaultCatalog.map (fun x => x.label)).contains ("has_prefix()") = false := by
  refine ⟨?_, by decide, by decide, by decide, by decide, by decide⟩
  rw [onCompletion, if_neg (by rw [h1]; simp), if_neg (by rw [h2]; simp),
    if_neg (by rw [h3]; simp), if_neg (by rw [h4]; simp), if_neg (by rw [h5]; simp),
    if_neg (by rw [h6]; simp), if_neg (by rw [h7]; simp)]

/-- Witness for C4 at the line "foo". -/
theorem onCompletion_default_witness :
    onCompletion (("foo").toList) = defaultCatalog :=
  (onCompletion_default (("foo").toList) (by decide) (by decide) (by decide) (by decide)
    (by decide) (by decide) (by decide)).1

/-- C10: the namespace trigger patterns are anchored only on the right (there
is no word boundary before the namespace name), so a line whose text up to the
cursor ends with a longer identifier that merely has a namespace name as a
suffix still selects that namespace's catalog rather than the default catalog;
in particular any line ending in "json." — such as "ajson." — yields the json
catalog, and any line ending in "http." — such as "myhttp." — yields the http
catalog. -/
theorem onCompletion_right_anchored (pre : List Char) :
    onCompletion (pre ++ (("strings.").toList)) = stringsCatalog ∧
    onCompletion (pre ++ (("json.").toList)) = jsonCatalog ∧
    onCompletion (pre ++ (("http.").toList)) = httpCatalog ∧
    onCompletion (pre ++ (("types.").toList)) = typesCatalog ∧
    onCompletion (pre ++ (("base64.").toList)) = base64Catalog ∧
    onCompletion (pre ++ (("time.").toList)) = timeCatalog ∧
    onCompletion (pre ++ (("decimal.").toList)) = decimalCatalog ∧
    onCompletion (("ajson.").toList) = jsonCatalog ∧
    onCompletion (("myhttp.").toList) = httpCatalog ∧
    jsonCatalog ≠ defaultCatalog ∧
    httpCatalog ≠ defaultCatalog := by
  refine ⟨?_, ?_, ?_, ?_, ?_, ?_, ?_, by decide, by decide, by decide, by decide⟩
  · show onCompletion (pre ++ ((("strings").toList) ++ ['.'])) = stringsCatalog
    rw [← List.append_assoc, onCompletion,
      if_pos (testNamespaceDot_suffix (("strings").toList) pre)]
  · show onCompletion (pre ++ ((("json").toList) ++ ['.'])) = jsonCatalog
    rw [← List.append_assoc, onCompletion,
      if_neg (testNamespaceDot_ne (("strings").toList) (("json").toList) pre (by decide) (by decide)),
      if_pos (testNamespaceDot_suffix (("json").toList) pre)]
  · show onCompletion (pre ++ ((("http").toList) ++ ['.'])) = httpCatalog
    rw [← List.append_assoc, onCompletion,
      if_neg (testNamespaceDot_ne (("strings").toList) (("http").toList) pre (by decide) (by decide)),
      if_neg (testNamespaceDot_ne (("json").toList) (("http").toList) pre (by decide) (by decide)),
      if_pos (testNamespaceDot_suffix (("http").toList) pre)]
  · show onCompletion (pre ++ ((("types").toList) ++ ['.'])) = typesCatalog
    rw [← List.append_assoc, onCompletion,
      if_neg (testNamespaceDot_ne (("strings").toList) (("types").toList) pre (by decide) (by decide)),
      if_neg (testNamespaceDot_ne (("json").toList) (("types").toList) pre (by decide) (by decide)),
      if_neg (testNamespaceDot_ne (("http").toList) (("types").toList) pre (by decide) (by decide)),
      if_pos (testNamespaceDot_suffix (("types").toList) pre)]
  · show onCompletion (pre ++ ((("base64").toList) ++ ['.'])) = base64Catalog
    rw [← List.append_assoc, onCompletion,
      if_neg (testNamespaceDot_ne (("strings").toList) (("base64").toList) pre (by decide) (by decide)),
      if_neg (testNamespaceDot_ne (("json").toList) (("base64").toList) pre (by decide) (by decide)),
      if_neg (testNamespaceDot_ne (("http").toList) (("base64").toList) pre (by decide) (by decide)),
      if_neg (testNamespaceDot_ne (("types").toList) (("base64").toList) pre (by decide) (by decide)),
      if_pos (testNamespaceDot_suffix (("base64").toList) pre)]
  · show onCompletion (pre ++ ((("time").toList) ++ ['.'])) = timeCatalog
    rw [← List.append_assoc, onCompletion,
      if_neg (testNamespaceDot_ne (("strings").toList) (("time").toList) pre (by decide) (by decide)),
      if_neg (testNamespaceDot_ne (("json").toList) (("time").toList) pre (by decide) (by decide)),
      if_neg (testNamespaceDot_ne (("http").toList) (("time").toList) pre (by decide) (by decide)),
      if_neg (testNamespaceDot_ne (("types").toList) (("time").toList) pre (by decide) (by decide)),
      if_neg (testNamespaceDot_ne (("base64").toList) (("time").toList) pre (by decide) (by decide)),
      if_pos (testNamespaceDot_suffix (("time").toList) pre)]
  · show onCompletion (pre ++ ((("decimal").toList) ++ ['.'])) = decimalCatalog
    rw [← List.append_assoc, onCompletion,
      if_neg (testNamespaceDot_ne (("strings").toList) (("decimal").toList) pre (by decide) (by decide)),
      if_neg (testNamespaceDot_ne (("json").toList) (("decimal").toList) pre (by decide) (by decide)),
      if_neg (testNamespaceDot_ne (("http").toList) (("decimal").toList) pre (by decide) (by decide)),
      if_neg (testNamespaceDot_ne (("types").toList) (("decimal").toList) pre (by decide) (by decide)),
      if_neg (testNamespaceDot_ne (("base64").toList) (("decimal").toList) pre (by decide) (by decide)),
      if_neg (testNamespaceDot_ne (("time").toList) (("decimal").toList) pre (by decide) (by decide)),
      if_pos (testNamespaceDot_suffix (("decimal").toList) pre)]

/-- C5 counterexample: the items with id 1 are not only the import keyword —
the strings catalog (a catalog the classifier returns) starts with
has_prefix(), which also has id 1 and is therefore not returned unchanged by
completion-resolve. -/
theorem stringsCatalog_id1_not_import :
    ({ label := "has_prefix()", kind := .Method, data := 1 } : CompletionItem) ∈
        stringsCatalog ∧
    ({ label := "has_prefix()", kind := .Method, data := 1 } : CompletionItem).data = 1 ∧
    ({ label := "has_prefix()", kind := .Method, data := 1 } : CompletionItem).label ≠
      ("import") := by
  decide

/-- C5 (amended): completion-resolve attaches detail and documentation text
exactly to the items whose id equals 1 and returns every other item unchanged;
resolve on the import keyword (id 1) populates detail and documentation, and
resolve on the for keyword (id 2) returns it unchanged. -/
theorem onCompletionResolve_spec :
    (∀ item : CompletionItem,
        onCompletionResolve item =
          if item.data = 1 then
            { item with
                detail := some ("Import plugin or standard library")
                documentation := some ("Import keyword allow us to import libraries") }
          else item) ∧
    onCompletionResolve { label := "import", kind := .Keyword, data := 1 } =
      { label := "import", kind := .Keyword, data := 1,
        detail := some ("Import plugin or standard library"),
        documentation := some ("Import keyword allow us to import libraries") } ∧
    onCompletionResolve { label := "for", kind := .Keyword, data := 2 } =
      { label := "for", kind := .Keyword, data := 2 } := by
  refine ⟨?_, by decide, by decide⟩
  intro item
  rw [onCompletionResolve]
  by_cases h : item.data = 1
  · rw [if_pos (by simp [h]), if_pos h]
  · rw [if_neg (by simp [h]), if_neg h]

/-- C9: every namespace catalog's first item has id 1, and completion-resolve
matches by id alone, so resolving the first item of a namespace catalog — for
example has_prefix() from the strings catalog or marshal() from the json
catalog — attaches the import keyword's detail and documentation text instead
of returning the item unchanged. -/
theorem namespaceCatalogs_resolve_by_id :
    ([stringsCatalog, jsonCatalog, httpCatalog, typesCatalog, base64Catalog, timeCatalog,
        decimalCatalog].all fun cat =>
      (cat.head?.map (fun x => x.data)) == some 1) = true ∧
    onCompletionResolve { label := "has_prefix()", kind := .Method, data := 1 } =
      { label := "has_prefix()", kind := .Method, data := 1,
        detail := some ("Import plugin or standard library"),
        documentation := some ("Import keyword allow us to import libraries") } ∧
    onCompletionResolve { label := "marshal()", kind := .Method, data := 1 } =
      { label := "marshal()", kind := .Method, data := 1,
        detail := some ("Import plugin or standard library"),
        documentation := some ("Import keyword allow us to import libraries") } := by
  decide

/-! ## Lemmas about the settings resolver and the pull-diagnostics handler -/

/-- C6: when per-scope configuration is supported, a global
configuration-change notification clears the whole per-document settings
cache, so the next resolve for any URI finds no cache entry and takes the
fresh resolution path — it issues a new scoped configuration request and
returns its result instead of any previously cached value. -/
theorem onDidChangeConfiguration_invalidates (st : ServerState)
    (changeSettings : Option ExampleSettings) (fetch : String → ExampleSettings)
    (uri : String) (h : st.hasConfigurationCapability = true) :
    (onDidChangeConfiguration st changeSettings).documentSettings = [] ∧
    (onDidChangeConfiguration st changeSettings).documentSettings.lookup uri = none ∧
    (getDocumentSettings (onDidChangeConfiguration st changeSettings) fetch uri).2.2 = true ∧
    (getDocumentSettings (onDidChangeConfiguration st changeSettings) fetch uri).1 =
      fetch uri := by
  have hst : onDidChangeConfiguration st changeSettings = { st with documentSettings := [] } := by
    rw [onDidChangeConfiguration, if_pos h]
  rw [hst]
  refine ⟨rfl, rfl, ?_, ?_⟩
  · simp [getDocumentSettings, h, List.lookup]
  · simp [getDocumentSettings, h, List.lookup]

/-- Witness for C6: a state with a populated cache, cleared by the
notification, resolves through the fresh path. -/
theorem onDidChangeConfiguration_invalidates_witness :
    (getDocumentSettings
        (onDidChangeConfiguration ⟨true, ⟨7⟩, [(("file:///a"), ⟨3⟩)]⟩ none)
        (fun _ => ⟨9⟩) ("file:///a")).2.2 = true :=
  (onDidChangeConfiguration_invalidates ⟨true, ⟨7⟩, [(("file:///a"), ⟨3⟩)]⟩ none
    (fun _ => ⟨9⟩) ("file:///a") rfl).2.2.1

/-- C7: a diagnostics pull request for a URI unknown to the Document Store
returns a full report with an empty items list rather than failing, and for a
known URI it returns a full report whose items come from scanning that
document. -/
theorem diagnosticsPullHandler_spec (docs : List (String × List Char)) (hasRel : Bool)
    (st : ServerState) (fetch : String → ExampleSettings) (uri : String) :
    (docs.lookup uri = none →
      diagnosticsPullHandler docs hasRel st fetch uri = { kind := "full", items := [] }) ∧
    (∀ text, docs.lookup uri = some text →
      diagnosticsPullHandler docs hasRel st fetch uri =
        { kind := "full"
          items := validateTextDocument hasRel uri text
            (getDocumentSettings st fetch uri).1 }) := by
  constructor
  · intro h
    simp only [diagnosticsPullHandler, h]
  · intro text h
    simp only [diagnosticsPullHandler, h]

/-- Witness for C7: a pull request against an empty Document Store yields the
empty full report. -/
theorem diagnosticsPullHandler_spec_witness :
    diagnosticsPullHandler [] false ⟨false, ⟨1000⟩, []⟩ (fun _ => ⟨1000⟩)
      ("file:///missing") = { kind := "full", items := [] } :=
  (diagnosticsPullHandler_spec [] false ⟨false, ⟨1000⟩, []⟩ (fun _ => ⟨1000⟩)
    ("file:///missing")).1 rfl

end Sentinel
